import Mathlib

/-!
Verification of the bufisk launcher (bufbuild/bufisk) against its
natural-language specification.

The Go sources are shallowly embedded: pure helpers (version validation,
manifest-line lookup, URL construction, error-message formatting) become
Lean functions over List Char / String; every effectful step of the
download-and-launch pipeline is modelled by explicit oracle inputs (a World
record of step outcomes) and an explicit trace of Event values recording, in
order, each observable action (network request, temp-file creation, cache
write, chmod, launch, ...).  Machine integers appearing in the code
(strconv.Atoi on 64-bit int) are modelled as Int with explicit range checks.
-/

namespace Bufisk

/-! ## Constants from the source (part 002) -/

def cacheDirPathEnvKey : String := "BUFISK_CACHE_DIR"

def useBufVersionEnvKey : String := "BUF_VERSION"

def bufVersionFileName : String := ".bufversion"

def minisignPublicKey : String := "RWQ/i9xseZwBVE7pEniCNjlNOeeyp4BQgdZDLQcAohxEAH5Uj5DEKjv6"

/-- Embeds getFileURL from the source: the release URL for one file. -/
def getFileURL (bufVersion fileName : String) : String :=
  "https://github.com/bufbuild/buf/releases/download/v" ++ bufVersion ++ "/" ++ fileName

/-! ## Go strings.Split

splitGoAux models Go strings.Split with a non-empty separator sep = s0 :: srest:
scan left to right, cut at every non-overlapping occurrence of the separator.
The fuel argument (always called with the length of the list) keeps the
recursion structural so the kernel can evaluate it. -/

def splitGoAux (s0 : Char) (srest : List Char) : Nat → List Char → List (List Char)
  | _, [] => [[]]
  | 0, l => [l]
  | fuel + 1, c :: cs =>
    if (s0 :: srest).isPrefixOf (c :: cs) then
      [] :: splitGoAux s0 srest fuel (cs.drop srest.length)
    else
      match splitGoAux s0 srest fuel cs with
      | [] => [[c]]
      | h :: t => (c :: h) :: t

/-- Embeds Go strings.Split for a non-empty separator (the source only calls
it with separators ".", two spaces, and a newline).  Go splits after every
rune when the separator is empty; that case is never exercised here. -/
def goSplit (sep l : List Char) : List (List Char) :=
  match sep with
  | [] => [l]
  | s0 :: srest => splitGoAux s0 srest l.length l

/-- Single-character splitting, structurally recursive; proved equal to
goSplit on one-character separators, and used for reasoning. -/
def splitChar (sep : Char) : List Char → List (List Char)
  | [] => [[]]
  | c :: cs =>
    let r := splitChar sep cs
    if c = sep then [] :: r
    else
      match r with
      | [] => [[c]]
      | h :: t => (c :: h) :: t

/-! ## Go strconv.Atoi

Models Go strconv.Atoi on a 64-bit platform: an optional leading sign
followed by one or more decimal digits, rejecting anything else and any
value outside the int64 range. -/

def digitsToNat (l : List Char) : Nat :=
  l.foldl (fun acc c => acc * 10 + (c.toNat - 48)) 0

def atoi (s : List Char) : Option Int :=
  match s with
  | [] => none
  | c :: rest =>
    let neg : Bool := c = '-'
    let digits : List Char := if c = '-' ∨ c = '+' then rest else c :: rest
    if digits.isEmpty then none
    else if digits.all Char.isDigit then
      let v : Int := if neg then -(digitsToNat digits : Int) else (digitsToNat digits : Int)
      if -(2 ^ 63) ≤ v ∧ v ≤ 2 ^ 63 - 1 then some v else none
    else none

/-! ## Version validation (validateBufVersion, newInvalidBufVersionError) -/

/-- Embeds newInvalidBufVersionError; the %q verbs are rendered as plain
double quotes. -/
def newInvalidBufVersionError (bufVersion source : String) : String :=
  "invalid buf version from " ++ source ++
    " (must be in the form \"MAJOR.MINOR.PATCH\"): \"" ++ bufVersion ++ "\""

/-- Embeds validateBufVersion: split on dots, require exactly three
components, require strconv.Atoi to succeed on each. -/
def validateBufVersion (bufVersion source : String) : Except String String :=
  let split := goSplit ['.'] bufVersion.data
  if split.length ≠ 3 then .error (newInvalidBufVersionError bufVersion source)
  else if split.all (fun s => (atoi s).isSome) then .ok bufVersion
  else .error (newInvalidBufVersionError bufVersion source)

/-- Modelled from the spec (section 3, VersionSpec): exactly three
dot-separated non-empty components, each consisting of decimal digits only
(hence a non-negative integer with no sign and no leading v). -/
def specAcceptsVersion (s : String) : Bool :=
  let comps := splitChar '.' s.data
  comps.length == 3 && comps.all (fun comp => !comp.isEmpty && comp.all Char.isDigit)

/-! ## Go strings.TrimSpace -/

/-- The whitespace set of Go unicode.IsSpace restricted to the code points
that fit a version file. -/
def isGoSpace (c : Char) : Bool :=
  c == ' ' || c == '\t' || c == '\n' || c == '\x0b' || c == '\x0c' || c == '\r' ||
    c == '\u0085' || c == '\u00A0'

/-- Embeds strings.TrimSpace: drop whitespace from both ends. -/
def trimSpace (s : String) : String :=
  ⟨((s.data.dropWhile isGoSpace).reverse.dropWhile isGoSpace).reverse⟩

/-! ## Version resolution (getBufVersion)

The environment override is an explicit argument (Go os.Getenv returns the
empty string when the variable is unset).  The ancestor walk from the
working directory up to the filesystem root is modelled by the list of
directories visited, in order, each paired with the outcome of reading its
.bufversion file; the Go loop ignores every read error (not only
fs.ErrNotExist), so the outcome distinguishes a successful read, a missing
file, and a permission error. -/

inductive ReadResult where
  | ok (data : String)
  | notFound
  | permError
deriving DecidableEq

/-- Embeds the directory-walk loop of getBufVersion, including the error
returned when the root is passed without finding a file.  filepath.Join is
rendered with a slash. -/
def getBufVersionFromDirs : List (String × ReadResult) → Except String String
  | [] => .error (useBufVersionEnvKey ++ " not set and no " ++ bufVersionFileName ++ " file found")
  | (dirPath, .ok data) :: _ =>
    validateBufVersion (trimSpace data) (dirPath ++ "/" ++ bufVersionFileName)
  | _ :: rest => getBufVersionFromDirs rest

/-- Embeds getBufVersion: a non-empty environment override is validated
verbatim; otherwise the ancestor directories are searched. -/
def getBufVersion (envValue : String) (dirs : List (String × ReadResult)) :
    Except String String :=
  if envValue ≠ "" then validateBufVersion envValue useBufVersionEnvKey
  else getBufVersionFromDirs dirs

/-! ## The sha256.txt manifest (getSha256HexForTxtData) -/

/-- Embeds the line scan of getSha256HexForTxtData: first line ending in the
file name is split on two spaces and must have exactly two fields. -/
def findSha256Line (fileName : List Char) (original : String) :
    List (List Char) → Except String String
  | [] => .error ("could not find \"" ++ (⟨fileName⟩ : String) ++ "\" in sha256.txt:\n" ++ original)
  | line :: rest =>
    if fileName.isSuffixOf line then
      match goSplit [' ', ' '] line with
      | [a, _b] => .ok ⟨a⟩
      | _ => .error ("invalid sha256.txt line: \"" ++ (⟨line⟩ : String) ++ "\"")
    else findSha256Line fileName original rest

/-- Embeds getSha256HexForTxtData: split the manifest on newlines and scan. -/
def getSha256HexForTxtData (sha256TxtData fileName : String) : Except String String :=
  findSha256Line fileName.data sha256TxtData (goSplit ['\n'] sha256TxtData.data)

/-! ## The effectful pipeline

Every effect of run / downloadBufToFilePath is recorded as an Event, and the
outcome of every fallible step is supplied by a World oracle.  A function
embedding an effectful Go function returns the Go result together with the
ordered trace of events it performed. -/

inductive Event where
  | statCache (path : String)
  | netRequest (url : String)
  | createTempFile (path : String)
  | writeTemp (path : String)
  | removeFile (path : String)
  | verifySignature
  | extractExpectedHash
  | hashTempFile (path : String)
  | mkdirParents (path : String)
  | createFile (path : String)
  | copyBytes (path : String)
  | renameFile (fromPath toPath : String)
  | chmod (path : String)
  | launch (path : String)
deriving DecidableEq

/-- A parsed minisign signature: only the key identifier is consulted by the
source beyond re-serialisation. -/
structure Signature where
  keyID : Nat
deriving DecidableEq

/-- The oracle for every effectful or cryptographic step of one invocation.
The embedded public key is a fixed valid constant, so its UnmarshalText
always succeeds; only its identifier (publicKeyID) matters. -/
structure World where
  /-- HTTP GET: either a transport error or a status code with a body. -/
  get : String → Except String (Nat × String)
  /-- os.CreateTemp: the temp file path, or an error. -/
  createTemp : Except String String
  /-- io.Copy of the response body into the temp file. -/
  writeTempRes : Except String Unit
  /-- Closing the temp file (deferred in the source). -/
  closeTempRes : Except String Unit
  /-- os.Remove of the temp file (deferred in the source). -/
  removeTempRes : Except String Unit
  /-- Signature.UnmarshalText on the fetched minisig bytes. -/
  unmarshalSignature : String → Except String Signature
  /-- The identifier of the embedded trusted public key. -/
  publicKeyID : Nat
  /-- Signature.MarshalText re-serialisation. -/
  marshalSig : Signature → Except String String
  /-- minisign.Verify over (manifest bytes, raw signature) with the trusted key. -/
  minisignVerify : String → String → Bool
  /-- The sha256 hex digest of a byte string. -/
  sha256 : String → String
  /-- I/O outcome of hashFile (open plus streaming read). -/
  hashReadRes : Except String Unit
  /-- os.MkdirAll on the cache parent directories. -/
  mkdirAllRes : Except String Unit
  /-- os.Open on the temp file inside copyFile. -/
  openSrcRes : Except String Unit
  /-- os.Create on the final cache path inside copyFile. -/
  createDstRes : Except String Unit
  /-- io.Copy from temp file to cache file. -/
  copyRes : Except String Unit
  /-- os.Chmod 0700 on the cache path. -/
  chmodRes : Except String Unit

/-- Embeds download combined with downloadData: one GET whose body is
returned whole when the status is 200. -/
def downloadData (w : World) (url : String) : Except String String × List Event :=
  match w.get url with
  | .error e => (.error e, [.netRequest url])
  | .ok (status, body) =>
    if status ≠ 200 then (.error (url ++ ": HTTP Status " ++ toString status), [.netRequest url])
    else (.ok body, [.netRequest url])

/-- Embeds downloadTempFile: one GET whose body is streamed into a fresh
temp file.  On success the temp path is returned together with the bytes now
on disk (second component); if creating, writing or closing the temp file
fails, the error is returned and no removal happens here. -/
def downloadTempFile (w : World) (url : String) :
    Except String (String × String) × List Event :=
  match w.get url with
  | .error e => (.error e, [.netRequest url])
  | .ok (status, body) =>
    if status ≠ 200 then (.error (url ++ ": HTTP Status " ++ toString status), [.netRequest url])
    else
      match w.createTemp with
      | .error e => (.error e, [.netRequest url])
      | .ok tempFilePath =>
        match w.writeTempRes with
        | .error e => (.error e, [.netRequest url, .createTempFile tempFilePath])
        | .ok _ =>
          match w.closeTempRes with
          | .error e =>
            (.error e, [.netRequest url, .createTempFile tempFilePath, .writeTemp tempFilePath])
          | .ok _ =>
            (.ok (tempFilePath, body),
              [.netRequest url, .createTempFile tempFilePath, .writeTemp tempFilePath])

/-- Embeds the key-mismatch error message of verifySha256TxtData, with the
%X verbs rendered via Nat.toDigits base 16 uppercased. -/
def toHexUpper (n : Nat) : String :=
  ⟨(Nat.toDigits 16 n).map Char.toUpper⟩

def keyMismatchError (pubID sigID : Nat) : String :=
  "minisign key IDs for sha256.txt do not match:  ID (public key): " ++ toHexUpper pubID ++
    " ID (signature): " ++ toHexUpper sigID

/-- Embeds verifySha256TxtData: parse the signature, reject on a key
identifier mismatch before ever calling minisign.Verify, then verify the
manifest bytes.  The verifySignature event marks the call to
minisign.Verify. -/
def verifySha256TxtData (w : World) (sha256TxtData sha256TxtMinisigData : String) :
    Except String Unit × List Event :=
  match w.unmarshalSignature sha256TxtMinisigData with
  | .error e => (.error e, [])
  | .ok sig =>
    if sig.keyID ≠ w.publicKeyID then
      (.error (keyMismatchError w.publicKeyID sig.keyID), [])
    else
      match w.marshalSig sig with
      | .error e => (.error e, [])
      | .ok rawSignature =>
        if w.minisignVerify sha256TxtData rawSignature then
          (.ok (), [.verifySignature])
        else
          (.error "minisign signature verification of sha256.txt failed", [.verifySignature])

/-- Embeds hashFile: open and stream the file through sha256; the content of
the file is passed explicitly (the temp file holds the downloaded body). -/
def hashFile (w : World) (filePath content : String) :
    Except String String × List Event :=
  match w.hashReadRes with
  | .error e => (.error e, [.hashTempFile filePath])
  | .ok _ => (.ok (w.sha256 content), [.hashTempFile filePath])

/-- Embeds copyFile: MkdirAll on the parent, open the source, create the
destination in place, copy the bytes.  The mkdirParents event stands for
MkdirAll(filepath.Dir(toFilePath)). -/
def copyFile (w : World) (fromFilePath toFilePath : String) :
    Except String Unit × List Event :=
  match w.mkdirAllRes with
  | .error e => (.error e, [.mkdirParents toFilePath])
  | .ok _ =>
    match w.openSrcRes with
    | .error e => (.error e, [.mkdirParents toFilePath])
    | .ok _ =>
      match w.createDstRes with
      | .error e => (.error e, [.mkdirParents toFilePath])
      | .ok _ =>
        match w.copyRes with
        | .error e => (.error e, [.mkdirParents toFilePath, .createFile toFilePath])
        | .ok _ =>
          (.ok (), [.mkdirParents toFilePath, .createFile toFilePath, .copyBytes toFilePath])

/-- Embeds the sha256-mismatch error message; the argument order of the
source is preserved (the computed hash is printed after the word expected,
the manifest hash after the word got). -/
def mismatchError (fileName sha256Hex sha256ExpectedHex : String) : String :=
  "sha256 mismatch for " ++ fileName ++ ": expected \"" ++ sha256Hex ++ "\" got \"" ++
    sha256ExpectedHex ++ "\""

/-- Embeds the deferred os.Remove of the temp file in downloadBufToFilePath:
run after the body, its event always appended; a removal error replaces a
nil result only. -/
def withRemoveTemp (w : World) (tempFilePath : String)
    (r : Except String Unit × List Event) : Except String Unit × List Event :=
  match r.fst, w.removeTempRes with
  | .ok _, .error e =>
    (.error ("failed to remove source file \"" ++ tempFilePath ++ "\": " ++ e),
      r.snd ++ [.removeFile tempFilePath])
  | res, _ => (res, r.snd ++ [.removeFile tempFilePath])

/-- Platform constants compiled per target in the source (unameS, unameM,
executableSuffix live in per-platform files, partly outside src). -/
structure Platform where
  unameS : String
  unameM : String
  executableSuffix : String

def artifactName (pl : Platform) : String :=
  "buf-" ++ pl.unameS ++ "-" ++ pl.unameM ++ pl.executableSuffix

/-- Embeds the body of downloadBufToFilePath after the temp download
succeeded: fetch sha256.txt and its minisig, verify the signature, extract
the expected hash, hash the temp file, compare, install, chmod. -/
def restOfDownload (w : World) (bufVersion bufFilePath tempFilePath fileName body : String) :
    Except String Unit × List Event :=
  match downloadData w (getFileURL bufVersion "sha256.txt") with
  | (.error e, evs) => (.error e, evs)
  | (.ok sha256TxtData, evs1) =>
    match downloadData w (getFileURL bufVersion "sha256.txt.minisig") with
    | (.error e, evs) => (.error e, evs1 ++ evs)
    | (.ok sha256TxtMinisigData, evs2) =>
      match verifySha256TxtData w sha256TxtData sha256TxtMinisigData with
      | (.error e, evsv) => (.error e, evs1 ++ evs2 ++ evsv)
      | (.ok _, evsv) =>
        match getSha256HexForTxtData sha256TxtData fileName with
        | .error e => (.error e, evs1 ++ evs2 ++ evsv ++ [.extractExpectedHash])
        | .ok sha256ExpectedHex =>
          match hashFile w tempFilePath body with
          | (.error e, evsh) =>
            (.error ("could not hash " ++ tempFilePath ++ ": " ++ e),
              evs1 ++ evs2 ++ evsv ++ [.extractExpectedHash] ++ evsh)
          | (.ok sha256Hex, evsh) =>
            if sha256Hex ≠ sha256ExpectedHex then
              (.error (mismatchError fileName sha256Hex sha256ExpectedHex),
                evs1 ++ evs2 ++ evsv ++ [.extractExpectedHash] ++ evsh)
            else
              match copyFile w tempFilePath bufFilePath with
              | (.error e, evsc) =>
                (.error e, evs1 ++ evs2 ++ evsv ++ [.extractExpectedHash] ++ evsh ++ evsc)
              | (.ok _, evsc) =>
                match w.chmodRes with
                | .error e =>
                  (.error e,
                    evs1 ++ evs2 ++ evsv ++ [.extractExpectedHash] ++ evsh ++ evsc ++
                      [.chmod bufFilePath])
                | .ok _ =>
                  (.ok (),
                    evs1 ++ evs2 ++ evsv ++ [.extractExpectedHash] ++ evsh ++ evsc ++
                      [.chmod bufFilePath])

/-- Embeds downloadBufToFilePath: download the artifact to a temp file (an
early failure there is wrapped and no removal is scheduled), then run the
rest under the deferred removal of the temp file. -/
def downloadBufToFilePath (w : World) (pl : Platform) (bufVersion bufFilePath : String) :
    Except String Unit × List Event :=
  match downloadTempFile w (getFileURL bufVersion (artifactName pl)) with
  | (.error e, evs) =>
    (.error ("could not download buf (are you sure \"" ++ bufVersion ++
      "\" is a valid release version?): " ++ e), evs)
  | (.ok (tempFilePath, body), evs0) =>
    match withRemoveTemp w tempFilePath
      (restOfDownload w bufVersion bufFilePath tempFilePath (artifactName pl) body) with
    | (res, evs) => (res, evs0 ++ evs)

/-! ## run -/

/-- Outcome of the os.Stat existence check on the cache path. -/
inductive StatResult where
  | found
  | errNotExist
  | errPermission
deriving DecidableEq

/-- Per-invocation oracle for run: version resolution inputs, cache
directory resolution inputs, the stat outcome, the download World, the
stderr notice write and the child process run. -/
structure RunWorld where
  envBufVersion : String
  versionDirs : List (String × ReadResult)
  cacheDirEnv : String
  defaultCacheDir : Except String String
  stat : StatResult
  w : World
  stderrPrintRes : Except String Unit
  runCmdRes : Except String Unit

/-- Embeds the cache-root resolution in run: the BUFISK_CACHE_DIR override,
else the platform default with a bufisk component appended. -/
def resolveCacheDirPath (rw : RunWorld) : Except String String :=
  if rw.cacheDirEnv ≠ "" then .ok rw.cacheDirEnv
  else
    match rw.defaultCacheDir with
    | .error e => .error e
    | .ok d => .ok (d ++ "/bufisk")

/-- The deterministic cache path computed by run (filepath.Join rendered
with slashes). -/
def bufFilePathOf (pl : Platform) (cacheDirPath bufVersion : String) : String :=
  cacheDirPath ++ "/" ++ pl.unameS ++ "/" ++ pl.unameM ++ "/releases/buf/" ++ bufVersion ++
    "/bin/buf"

/-- Embeds run: resolve the version and the cache directory, stat the cache
path, download on any stat error, then launch the cached binary. -/
def runModel (pl : Platform) (rw : RunWorld) : Except String Unit × List Event :=
  match getBufVersion rw.envBufVersion rw.versionDirs with
  | .error e => (.error e, [])
  | .ok bufVersion =>
    match resolveCacheDirPath rw with
    | .error e => (.error e, [])
    | .ok cacheDirPath =>
      let bufFilePath := bufFilePathOf pl cacheDirPath bufVersion
      match rw.stat with
      | .found => (rw.runCmdRes, [.statCache bufFilePath, .launch bufFilePath])
      | _ =>
        match downloadBufToFilePath rw.w pl bufVersion bufFilePath with
        | (.error e, evs) => (.error e, .statCache bufFilePath :: evs)
        | (.ok _, evs) =>
          match rw.stderrPrintRes with
          | .error e => (.error e, .statCache bufFilePath :: evs)
          | .ok _ => (rw.runCmdRes, .statCache bufFilePath :: (evs ++ [.launch bufFilePath]))

/-! ## Event ordering in traces -/

/-- a strictly precedes b in the trace: both occur, and the first occurrence
of a is before the first occurrence of b. -/
def strictlyBefore (a b : Event) (tr : List Event) : Bool :=
  match tr.findIdx? (fun e => e == a), tr.findIdx? (fun e => e == b) with
  | some i, some j => decide (i < j)
  | _, _ => false

/-- Modelled from the spec (section 4.5): an install trace publishes
atomically when the final path is never the target of a direct file
creation and is produced by a rename from some sibling temporary path. -/
def atomicRenameInstall (finalPath : String) (tr : List Event) : Bool :=
  tr.all (fun e => e != Event.createFile finalPath) &&
    tr.any (fun e =>
      match e with
      | .renameFile _ dst => dst == finalPath
      | _ => false)

/-- Signature extraction is gated on verification: wherever the expected
hash is extracted from the manifest, the trace shows a successful
minisign.Verify call immediately before it, with neither event earlier. -/
def extractionGated (tr : List Event) : Prop :=
  Event.extractExpectedHash ∈ tr →
    ∃ pre suf, tr = pre ++ Event.verifySignature :: Event.extractExpectedHash :: suf ∧
      Event.extractExpectedHash ∉ pre ∧ Event.verifySignature ∉ pre

/-! ## Concrete worlds used by witnesses and counterexamples -/

def plLinux : Platform := ⟨"Linux", "x86_64", ""⟩

def urlOf (fileName : String) : String := getFileURL "1.28.1" fileName

/-- A fully successful oracle: the artifact body hashes to the digest the
(verified) manifest declares for buf-Linux-x86_64. -/
def wOK : World where
  get := fun u =>
    if u = urlOf "buf-Linux-x86_64" then .ok (200, "ARTIFACTBYTES")
    else if u = urlOf "sha256.txt" then .ok (200, "deadbeef  buf-Linux-x86_64")
    else .ok (200, "MINISIGDATA")
  createTemp := .ok "/tmp/bufisk123"
  writeTempRes := .ok ()
  closeTempRes := .ok ()
  removeTempRes := .ok ()
  unmarshalSignature := fun _ => .ok ⟨7⟩
  publicKeyID := 7
  marshalSig := fun _ => .ok "RAWSIG"
  minisignVerify := fun _ _ => true
  sha256 := fun _ => "deadbeef"
  hashReadRes := .ok ()
  mkdirAllRes := .ok ()
  openSrcRes := .ok ()
  createDstRes := .ok ()
  copyRes := .ok ()
  chmodRes := .ok ()

def rwOK : RunWorld where
  envBufVersion := "1.28.1"
  versionDirs := []
  cacheDirEnv := "/cache"
  defaultCacheDir := .ok "/defcache"
  stat := .errNotExist
  w := wOK
  stderrPrintRes := .ok ()
  runCmdRes := .ok ()

def cachePathOK : String := bufFilePathOf plLinux "/cache" "1.28.1"

/-! ## Helper lemmas about the embedded functions -/

theorem downloadData_snd (w : World) (u : String) :
    (downloadData w u).snd = [.netRequest u] := by
  unfold downloadData
  rcases h : w.get u with e | ⟨st, body⟩
  · rfl
  · by_cases hst : st ≠ 200 <;> simp [hst]

theorem downloadTempFile_ok (w : World) (u body t : String)
    (hg : w.get u = .ok (200, body)) (hc : w.createTemp = .ok t)
    (hw : w.writeTempRes = .ok ()) (hcl : w.closeTempRes = .ok ()) :
    downloadTempFile w u =
      (.ok (t, body), [.netRequest u, .createTempFile t, .writeTemp t]) := by
  unfold downloadTempFile
  simp [hg, hc, hw, hcl]

theorem downloadTempFile_mem (w : World) (u : String) :
    ∀ e ∈ (downloadTempFile w u).snd,
      e = .netRequest u ∨ (∃ t, e = .createTempFile t) ∨ ∃ t, e = .writeTemp t := by
  unfold downloadTempFile
  rcases hg : w.get u with e | ⟨st, body⟩
  · simp
  · by_cases hst : st ≠ 200
    · simp [hst]
    · rcases hc : w.createTemp with e | t
      · simp [hst, hc]
      · rcases hw : w.writeTempRes with e | _
        · simp [hst, hc, hw]
        · rcases hcl : w.closeTempRes with e | _ <;> simp [hst, hc, hw, hcl]

theorem verifySha256TxtData_snd (w : World) (a b : String) :
    (verifySha256TxtData w a b).snd = [] ∨
      (verifySha256TxtData w a b).snd = [.verifySignature] := by
  unfold verifySha256TxtData
  rcases hu : w.unmarshalSignature b with e | sig
  · simp
  · by_cases hk : sig.keyID ≠ w.publicKeyID
    · simp [hk]
    · rcases hm : w.marshalSig sig with e | raw
      · simp [hk, hm]
      · by_cases hv : w.minisignVerify a raw <;> simp [hk, hm, hv]

theorem verifySha256TxtData_ok_snd (w : World) (a b : String)
    (h : (verifySha256TxtData w a b).fst = .ok ()) :
    (verifySha256TxtData w a b).snd = [.verifySignature] := by
  unfold verifySha256TxtData at h ⊢
  rcases hu : w.unmarshalSignature b with e | sig
  · simp [hu] at h
  · by_cases hk : sig.keyID ≠ w.publicKeyID
    · simp [hu, hk] at h
    · rcases hm : w.marshalSig sig with e | raw
      · simp [hu, hk, hm] at h
      · by_cases hv : w.minisignVerify a raw <;> simp [hu, hk, hm, hv] at h ⊢

theorem withRemoveTemp_snd (w : World) (t : String) (r : Except String Unit × List Event) :
    (withRemoveTemp w t r).snd = r.snd ++ [.removeFile t] := by
  unfold withRemoveTemp
  rcases r with ⟨res, evs⟩
  rcases res with e | u <;> rcases hr : w.removeTempRes with e2 | u2 <;> simp

theorem copyFile_mem (w : World) (a b : String) :
    ∀ e ∈ (copyFile w a b).snd,
      e = .mkdirParents b ∨ e = .createFile b ∨ e = .copyBytes b := by
  unfold copyFile
  rcases h1 : w.mkdirAllRes with e | _
  · simp
  · rcases h2 : w.openSrcRes with e | _
    · simp
    · rcases h3 : w.createDstRes with e | _
      · simp
      · rcases h4 : w.copyRes with e | _ <;> simp

/-! ## Split and Atoi lemmas -/

theorem splitGoAux_eq_splitChar (s0 : Char) :
    ∀ (l : List Char) (fuel : Nat), l.length ≤ fuel →
      splitGoAux s0 [] fuel l = splitChar s0 l := by
  intro l
  induction l with
  | nil => intro fuel _; cases fuel <;> rfl
  | cons c cs ih =>
    intro fuel hf
    cases fuel with
    | zero => simp at hf
    | succ f =>
      simp only [List.length_cons, Nat.succ_le_succ_iff] at hf
      show splitGoAux s0 [] (f + 1) (c :: cs) = splitChar s0 (c :: cs)
      rw [splitGoAux, splitChar]
      have hpre : [s0].isPrefixOf (c :: cs) = (c == s0) := by
        simp [List.isPrefixOf, BEq.comm]
      rw [hpre]
      by_cases hc : c = s0
      · simp [hc, ih f hf]
      · have : (c == s0) = false := by simp [hc]
        simp only [this, if_neg hc, Bool.false_eq_true, if_false, List.drop_zero,
          ih f hf]

theorem goSplit_singleton (c : Char) (l : List Char) :
    goSplit [c] l = splitChar c l := by
  unfold goSplit
  exact splitGoAux_eq_splitChar c l l.length le_rfl

theorem splitChar_ne_nil (sep : Char) (l : List Char) : splitChar sep l ≠ [] := by
  cases l with
  | nil => simp [splitChar]
  | cons c cs =>
    rw [splitChar]
    by_cases h : c = sep
    · simp [h]
    · simp only [if_neg h]
      rcases splitChar sep cs with _ | ⟨h1, t⟩ <;> simp

theorem mem_splitChar_of_mem (sep : Char) (l : List Char) :
    ∀ c ∈ l, c = sep ∨ ∃ comp ∈ splitChar sep l, c ∈ comp := by
  induction l with
  | nil => simp
  | cons a as ih =>
    intro c hc
    rw [splitChar]
    by_cases ha : a = sep
    · rcases List.mem_cons.mp hc with rfl | hmem
      · exact Or.inl ha
      · rcases ih c hmem with h | ⟨comp, hcomp, hccomp⟩
        · exact Or.inl h
        · exact Or.inr ⟨comp, by simp [ha, hcomp], hccomp⟩
    · simp only [if_neg ha]
      rcases hs : splitChar sep as with _ | ⟨h1, t⟩
      · exact absurd hs (splitChar_ne_nil sep as)
      · rcases List.mem_cons.mp hc with rfl | hmem
        · exact Or.inr ⟨c :: h1, by simp, by simp⟩
        · rcases ih c hmem with h | ⟨comp, hcomp, hccomp⟩
          · exact Or.inl h
          · rw [hs] at hcomp
            rcases List.mem_cons.mp hcomp with rfl | hcomp2
            · exact Or.inr ⟨a :: comp, by simp, by simp [hccomp]⟩
            · exact Or.inr ⟨comp, by simp [hcomp2], hccomp⟩

theorem atoi_isSome_chars (comp : List Char) (h : (atoi comp).isSome = true) :
    ∀ ch ∈ comp, ch = '+' ∨ ch = '-' ∨ ch.isDigit = true := by
  intro ch hch
  unfold atoi at h
  rcases comp with _ | ⟨c, rest⟩
  · simp at hch
  · by_cases hsign : c = '-' ∨ c = '+'
    · simp only [if_pos hsign] at h
      rcases List.mem_cons.mp hch with rfl | hmem
      · rcases hsign with rfl | rfl
        · exact Or.inr (Or.inl rfl)
        · exact Or.inl rfl
      · by_cases he : rest.isEmpty
        · simp [he] at h
        · by_cases hd : rest.all Char.isDigit
          · exact Or.inr (Or.inr ((List.all_eq_true.mp hd) ch hmem))
          · simp [he, hd] at h
    · simp only [if_neg hsign] at h
      by_cases he : (c :: rest).isEmpty
      · simp at he
      · by_cases hd : (c :: rest).all Char.isDigit
        · exact Or.inr (Or.inr ((List.all_eq_true.mp hd) ch hch))
        · simp [he, hd] at h

/-! ## Version validation lemmas -/

theorem validate_ok_iff (s src : String) :
    validateBufVersion s src = .ok s ↔
      (goSplit ['.'] s.data).length = 3 ∧
        ∀ comp ∈ goSplit ['.'] s.data, (atoi comp).isSome = true := by
  unfold validateBufVersion
  by_cases hl : (goSplit ['.'] s.data).length ≠ 3
  · simp [hl]
  · simp only [if_neg hl]
    push_neg at hl
    by_cases ha : (goSplit ['.'] s.data).all fun c => (atoi c).isSome
    · simp only [ha, if_true, true_iff]
      exact ⟨hl, fun comp hc => List.all_eq_true.mp ha comp hc⟩
    · simp only [if_neg ha, ne_eq]
      constructor
      · intro h; simp at h
      · intro ⟨_, hall⟩
        exact absurd (List.all_eq_true.mpr hall) ha

theorem validate_ok_or_error (s src : String) :
    validateBufVersion s src = .ok s ∨
      validateBufVersion s src = .error (newInvalidBufVersionError s src) := by
  unfold validateBufVersion
  by_cases hl : (goSplit ['.'] s.data).length ≠ 3
  · simp [hl]
  · by_cases ha : (goSplit ['.'] s.data).all fun c => (atoi c).isSome <;> simp [hl, ha]

theorem validate_ok_any_source (s src src2 : String)
    (h : validateBufVersion s src = .ok s) : validateBufVersion s src2 = .ok s := by
  exact (validate_ok_iff s src2).mpr ((validate_ok_iff s src).mp h)

theorem accepted_chars (s src : String) (h : validateBufVersion s src = .ok s) :
    ∀ ch ∈ s.data, ch = '.' ∨ ch = '+' ∨ ch = '-' ∨ ch.isDigit = true := by
  intro ch hch
  obtain ⟨_, hall⟩ := (validate_ok_iff s src).mp h
  rw [goSplit_singleton] at hall
  rcases mem_splitChar_of_mem '.' s.data ch hch with hdot | ⟨comp, hcomp, hchc⟩
  · exact Or.inl hdot
  · rcases atoi_isSome_chars comp (hall comp hcomp) ch hchc with
      h1 | h2 | h3
    · exact Or.inr (Or.inl h1)
    · exact Or.inr (Or.inr (Or.inl h2))
    · exact Or.inr (Or.inr (Or.inr h3))

theorem version_char_not_space (ch : Char)
    (h : ch = '.' ∨ ch = '+' ∨ ch = '-' ∨ ch.isDigit = true) : isGoSpace ch = false := by
  rcases h with rfl | rfl | rfl | h
  · decide
  · decide
  · decide
  · simp only [isGoSpace, Bool.or_eq_false_iff, beq_eq_false_iff_ne, ne_eq]
    refine ⟨⟨⟨⟨⟨⟨⟨?_, ?_⟩, ?_⟩, ?_⟩, ?_⟩, ?_⟩, ?_⟩, ?_⟩ <;>
      · rintro rfl; simp [Char.isDigit] at h

/-! ## dropWhile and trim lemmas -/

theorem dropWhile_all_true {α : Type} (p : α → Bool) (l : List α)
    (h : ∀ c ∈ l, p c = true) : l.dropWhile p = [] := by
  induction l with
  | nil => rfl
  | cons a as ih =>
    rw [List.dropWhile_cons, if_pos (h a (by simp))]
    exact ih fun c hc => h c (by simp [hc])

theorem dropWhile_append_all {α : Type} (p : α → Bool) (l1 l2 : List α)
    (h : ∀ c ∈ l1, p c = true) : (l1 ++ l2).dropWhile p = l2.dropWhile p := by
  induction l1 with
  | nil => rfl
  | cons a as ih =>
    rw [List.cons_append, List.dropWhile_cons, if_pos (h a (by simp))]
    exact ih fun c hc => h c (by simp [hc])

theorem dropWhile_all_false {α : Type} (p : α → Bool) (l : List α)
    (h : ∀ c ∈ l, p c = false) : l.dropWhile p = l := by
  cases l with
  | nil => rfl
  | cons a as =>
    rw [List.dropWhile_cons, if_neg (by simp [h a (by simp)])]

theorem trimSpace_sandwich (pre mid post : List Char)
    (hpre : ∀ c ∈ pre, isGoSpace c = true) (hpost : ∀ c ∈ post, isGoSpace c = true)
    (hmid : ∀ c ∈ mid, isGoSpace c = false) :
    trimSpace ⟨pre ++ mid ++ post⟩ = ⟨mid⟩ := by
  unfold trimSpace
  apply congrArg String.mk
  show ((((pre ++ mid ++ post : List Char)).dropWhile isGoSpace).reverse.dropWhile
    isGoSpace).reverse = mid
  rw [List.append_assoc, dropWhile_append_all isGoSpace pre (mid ++ post) hpre]
  cases mid with
  | nil =>
    rw [List.nil_append, dropWhile_all_true isGoSpace post hpost]
    rfl
  | cons m ms =>
    rw [List.cons_append, List.dropWhile_cons, if_neg (by simp [hmid m (by simp)])]
    rw [show (m :: (ms ++ post)) = (m :: ms) ++ post from rfl, List.reverse_append]
    rw [dropWhile_append_all isGoSpace post.reverse (m :: ms).reverse
      (fun c hc => hpost c (List.mem_reverse.mp hc))]
    rw [dropWhile_all_false isGoSpace (m :: ms).reverse
      (fun c hc => hmid c (List.mem_reverse.mp hc))]
    exact List.reverse_reverse _

/-! ## Claim C4 -/

/-- Claim C4, counterexample: the claim says every string with a negative
component is rejected, but validateBufVersion accepts 1.-2.3 (strconv.Atoi
accepts signed components), which the spec-side acceptor rejects. -/
theorem c4_counterexample :
    validateBufVersion "1.-2.3" useBufVersionEnvKey = .ok "1.-2.3" ∧
      specAcceptsVersion "1.-2.3" = false :=
  ⟨rfl, by decide⟩

/-- Claim C4, amended: validateBufVersion accepts exactly the strings with
three dot-separated components each accepted by Go strconv.Atoi (optional
sign, one or more digits, value within the 64-bit int range) - so signed
components are accepted and huge all-digit components are rejected - and
every rejection carries the InvalidVersionFormat error naming the offending
source. -/
theorem c4_amended (s src : String) :
    (validateBufVersion s src = .ok s ↔
      (goSplit ['.'] s.data).length = 3 ∧
        ∀ comp ∈ goSplit ['.'] s.data, (atoi comp).isSome = true) ∧
    ∀ e, validateBufVersion s src = .error e → e = newInvalidBufVersionError s src := by
  refine ⟨validate_ok_iff s src, fun e he => ?_⟩
  rcases validate_ok_or_error s src with h | h
  · rw [h] at he; exact absurd he (by simp)
  · rw [h] at he; exact (Except.error.inj he).symm

/-- Claim C4, witness for the amended theorem at the concrete version
10.0.7. -/
theorem c4_amended_witness : validateBufVersion "10.0.7" useBufVersionEnvKey = .ok "10.0.7" :=
  (c4_amended "10.0.7" useBufVersionEnvKey).1.mpr (by decide)

/-! ## Claim C8 -/

/-- Claim C8: a permission error reading one directory level is handled
exactly like an absent file there (the walk continues to the parent), while
the first successfully read version file, when its trimmed content is
rejected, makes resolution fail with that InvalidVersionFormat error no
matter what further ancestors hold. -/
theorem c8_ancestor_traversal :
    (∀ (p : String) (rest : List (String × ReadResult)),
      getBufVersionFromDirs ((p, .permError) :: rest) =
        getBufVersionFromDirs ((p, .notFound) :: rest)) ∧
    (∀ (p data : String) (rest : List (String × ReadResult)) (e : String),
      validateBufVersion (trimSpace data) (p ++ "/" ++ bufVersionFileName) = .error e →
      getBufVersionFromDirs ((p, .ok data) :: rest) = .error e) := by
  refine ⟨fun p rest => rfl, fun p data rest e h => ?_⟩
  simpa [getBufVersionFromDirs] using h

/-- Claim C8, witness: a malformed file at /a fails resolution even though
the ancestor / holds a well-formed version file. -/
theorem c8_witness :
    getBufVersionFromDirs [("/a", .ok "bogus"), ("/", .ok "1.2.3")] =
      .error (newInvalidBufVersionError "bogus" "/a/.bufversion") :=
  c8_ancestor_traversal.2 "/a" "bogus" [("/", .ok "1.2.3")] _ rfl

/-! ## Claim C10 -/

/-- Claim C10: the environment override is validated verbatim while a
version file is trimmed first, so any accepted version string surrounded by
whitespace is rejected with InvalidVersionFormat when it arrives through the
override and accepted when the same bytes arrive through a version file. -/
theorem c10_env_untrimmed_file_trimmed (v : String) (pre post : List Char)
    (dirs rest : List (String × ReadResult)) (p : String)
    (hv : validateBufVersion v "src" = .ok v)
    (hpre : ∀ c ∈ pre, isGoSpace c = true) (hpost : ∀ c ∈ post, isGoSpace c = true)
    (hne : pre ++ post ≠ []) :
    getBufVersion ⟨pre ++ v.data ++ post⟩ dirs =
      .error (newInvalidBufVersionError ⟨pre ++ v.data ++ post⟩ useBufVersionEnvKey) ∧
    getBufVersion "" ((p, .ok ⟨pre ++ v.data ++ post⟩) :: rest) = .ok v := by
  set wv : String := ⟨pre ++ v.data ++ post⟩ with hwv
  have hmid : ∀ c ∈ v.data, isGoSpace c = false := fun c hc =>
    version_char_not_space c (accepted_chars v "src" hv c hc)
  have hspacemem : ∃ c ∈ wv.data, isGoSpace c = true := by
    rcases pre with _ | ⟨a, as⟩
    · rcases post with _ | ⟨b, bs⟩
      · exact absurd rfl hne
      · exact ⟨b, by simp [hwv], hpost b (by simp)⟩
    · exact ⟨a, by simp [hwv], hpre a (by simp)⟩
  have hwvne : wv ≠ "" := by
    intro h
    obtain ⟨c, hc, _⟩ := hspacemem
    rw [h] at hc
    simp at hc
  have hrej : validateBufVersion wv useBufVersionEnvKey =
      .error (newInvalidBufVersionError wv useBufVersionEnvKey) := by
    rcases validate_ok_or_error wv useBufVersionEnvKey with h | h
    · obtain ⟨c, hc, hcsp⟩ := hspacemem
      have := version_char_not_space c (accepted_chars wv useBufVersionEnvKey h c hc)
      rw [this] at hcsp
      exact absurd hcsp (by simp)
    · exact h
  have htrim : trimSpace wv = v := by
    rw [hwv]
    rw [trimSpace_sandwich pre v.data post hpre hpost hmid]
  constructor
  · rw [getBufVersion, if_pos hwvne]
    exact hrej
  · show getBufVersion "" ((p, .ok wv) :: rest) = .ok v
    rw [getBufVersion, if_neg (by simp)]
    show validateBufVersion (trimSpace wv) (p ++ "/" ++ bufVersionFileName) = .ok v
    rw [htrim]
    exact validate_ok_any_source v "src" _ hv

/-- Claim C10, witness at the concrete override value consisting of 1.2.3
surrounded by one space on each side. -/
theorem c10_witness :
    getBufVersion " 1.2.3 " [] =
      .error (newInvalidBufVersionError " 1.2.3 " useBufVersionEnvKey) ∧
    getBufVersion "" [("/a", .ok " 1.2.3 ")] = .ok "1.2.3" :=
  c10_env_untrimmed_file_trimmed "1.2.3" [' '] [' '] [] [] "/a" rfl
    (by decide) (by decide) (by decide)

/-! ## Claim C7 -/

/-- Claim C7: when the stat on the computed cache path succeeds, run goes
straight from the existence check to launching the cached binary; the trace
holds no network request at all. -/
theorem c7_cache_hit_no_network (pl : Platform) (rw : RunWorld) (v cd : String)
    (hv : getBufVersion rw.envBufVersion rw.versionDirs = .ok v)
    (hcd : resolveCacheDirPath rw = .ok cd)
    (hs : rw.stat = .found) :
    runModel pl rw =
      (rw.runCmdRes,
        [.statCache (bufFilePathOf pl cd v), .launch (bufFilePathOf pl cd v)]) ∧
    ∀ u, Event.netRequest u ∉ (runModel pl rw).snd := by
  have h1 : runModel pl rw =
      (rw.runCmdRes,
        [.statCache (bufFilePathOf pl cd v), .launch (bufFilePathOf pl cd v)]) := by
    unfold runModel
    rw [hv, hcd, hs]
  exact ⟨h1, fun u => by rw [h1]; simp⟩

/-- Claim C7, witness: the concrete all-success world with the artifact
already cached. -/
theorem c7_witness :
    runModel plLinux { rwOK with stat := .found } =
      (.ok (), [.statCache cachePathOK, .launch cachePathOK]) ∧
    ∀ u, Event.netRequest u ∉ (runModel plLinux { rwOK with stat := .found }).snd :=
  c7_cache_hit_no_network plLinux { rwOK with stat := .found } "1.28.1" "/cache" rfl rfl rfl

/-! ## Claim C9 -/

/-- Claim C9: any stat error on the cache path - a permission error as much
as absence - is treated as a cache miss: run behaves exactly as if the path
were missing, and the download pipeline runs against the computed cache
path before any launch. -/
theorem c9_stat_error_cache_miss (pl : Platform) (rw : RunWorld) (v cd : String)
    (hv : getBufVersion rw.envBufVersion rw.versionDirs = .ok v)
    (hcd : resolveCacheDirPath rw = .ok cd)
    (hs : rw.stat = .errPermission) :
    runModel pl rw = runModel pl { rw with stat := .errNotExist } ∧
    ∃ tail, (runModel pl rw).snd =
      .statCache (bufFilePathOf pl cd v) ::
        ((downloadBufToFilePath rw.w pl v (bufFilePathOf pl cd v)).snd ++ tail) := by
  have hcd2 : resolveCacheDirPath { rw with stat := .errNotExist } = .ok cd := hcd
  constructor
  · unfold runModel
    rw [hv, hcd, hcd2, hs]
  · unfold runModel
    rw [hv, hcd, hs]
    rcases hdl : downloadBufToFilePath rw.w pl v (bufFilePathOf pl cd v) with ⟨res, evs⟩
    rcases res with e | u
    · exact ⟨[], by simp [hdl]⟩
    · rcases hp : rw.stderrPrintRes with e | u2
      · exact ⟨[], by simp [hdl, hp]⟩
      · exact ⟨[.launch (bufFilePathOf pl cd v)], by simp [hdl, hp]⟩

/-- Claim C9, witness: the all-success world with a permission error from
the stat; the download trace is followed by the launch. -/
theorem c9_witness :
    runModel plLinux { rwOK with stat := .errPermission } =
      runModel plLinux { rwOK with stat := .errNotExist } ∧
    ∃ tail, (runModel plLinux { rwOK with stat := .errPermission }).snd =
      .statCache cachePathOK ::
        ((downloadBufToFilePath wOK plLinux "1.28.1" cachePathOK).snd ++ tail) :=
  c9_stat_error_cache_miss plLinux { rwOK with stat := .errPermission } "1.28.1" "/cache"
    rfl rfl rfl

/-! ## Claim C5 -/

/-- The all-success oracle except that writing the downloaded bytes into
the just-created temp file fails. -/
def wWriteFail : World := { wOK with writeTempRes := .error "short write" }

/-- Claim C5, counterexample: when writing the temp file itself fails, the
step returns an error although the created temp file is never removed - the
deferred removal is only installed after the temp download succeeds, so the
claim that every exit path removes the temp file is false. -/
theorem c5_counterexample :
    (downloadBufToFilePath wWriteFail plLinux "1.28.1" cachePathOK).fst =
      .error ("could not download buf (are you sure \"1.28.1\" is a valid release version?): " ++
        "short write") ∧
    Event.createTempFile "/tmp/bufisk123" ∈
      (downloadBufToFilePath wWriteFail plLinux "1.28.1" cachePathOK).snd ∧
    Event.removeFile "/tmp/bufisk123" ∉
      (downloadBufToFilePath wWriteFail plLinux "1.28.1" cachePathOK).snd :=
  ⟨rfl, by decide, by decide⟩

/-- Claim C5, amended: once the temp download step returns successfully, the
temp file is removed on every exit path of downloadBufToFilePath - success,
hash mismatch, verification failure, or any later I/O error - but when
creating, writing or closing the temp file itself fails, an already-created
temp file is left behind. -/
theorem c5_amended (w : World) (pl : Platform) (v p t body : String)
    (h : (downloadTempFile w (getFileURL v (artifactName pl))).fst = .ok (t, body)) :
    Event.removeFile t ∈ (downloadBufToFilePath w pl v p).snd := by
  unfold downloadBufToFilePath
  rcases hdl : downloadTempFile w (getFileURL v (artifactName pl)) with ⟨res, evs0⟩
  rw [hdl] at h
  simp only at h
  subst h
  simp [hdl, withRemoveTemp_snd]

/-- Claim C5, witness for the amended theorem: in the all-success world the
temp file removal appears in the trace. -/
theorem c5_amended_witness :
    Event.removeFile "/tmp/bufisk123" ∈
      (downloadBufToFilePath wOK plLinux "1.28.1" cachePathOK).snd :=
  c5_amended wOK plLinux "1.28.1" cachePathOK "/tmp/bufisk123" "ARTIFACTBYTES" rfl

/-! ## Claim C3 -/

/-- Claim C3, counterexample: a successful install creates the final cache
path directly and copies into it; the trace has no rename and creates the
final path itself, so the sibling-temp-plus-atomic-rename claim is false. -/
theorem c3_counterexample :
    copyFile wOK "/tmp/bufisk123" cachePathOK =
      (.ok (), [.mkdirParents cachePathOK, .createFile cachePathOK, .copyBytes cachePathOK]) ∧
    atomicRenameInstall cachePathOK
      [.mkdirParents cachePathOK, .createFile cachePathOK, .copyBytes cachePathOK] = false :=
  ⟨rfl, by decide⟩

/-- Claim C3, amended: cache installation writes straight to the final cache
path - parent directories, then create the final file in place, then copy
the bytes - with no sibling temporary path and no rename anywhere in its
trace; when the copy into the created file fails, the step errors with the
final path already created (a partially-written file can be visible). -/
theorem c3_amended (w : World) (fromFilePath toFilePath : String)
    (hm : w.mkdirAllRes = .ok ()) (ho : w.openSrcRes = .ok ())
    (hc : w.createDstRes = .ok ()) :
    (∀ a b, Event.renameFile a b ∉ (copyFile w fromFilePath toFilePath).snd) ∧
    (∀ e, w.copyRes = .error e →
      copyFile w fromFilePath toFilePath =
        (.error e, [.mkdirParents toFilePath, .createFile toFilePath])) ∧
    (w.copyRes = .ok () →
      copyFile w fromFilePath toFilePath =
        (.ok (), [.mkdirParents toFilePath, .createFile toFilePath, .copyBytes toFilePath])) := by
  refine ⟨fun a b hmem => ?_, fun e he => ?_, fun hok => ?_⟩
  · rcases copyFile_mem w fromFilePath toFilePath _ hmem with h | h | h <;> simp at h
  · unfold copyFile
    rw [hm, ho, hc, he]
  · unfold copyFile
    rw [hm, ho, hc, hok]

/-- The all-success oracle except that the byte copy into the cache file
fails after os.Create already succeeded. -/
def wCopyFail : World := { wOK with copyRes := .error "interrupted" }

/-- Claim C3, witness for the amended theorem: an interrupted copy leaves
the directly-created final path behind. -/
theorem c3_amended_witness :
    copyFile wCopyFail "/tmp/bufisk123" cachePathOK =
      (.error "interrupted", [.mkdirParents cachePathOK, .createFile cachePathOK]) :=
  (c3_amended wCopyFail "/tmp/bufisk123" cachePathOK rfl rfl rfl).2.1 "interrupted" rfl

/-! ## Claim C2 -/

/-- Claim C2: when the computed digest of the fetched artifact differs from
the digest the verified manifest declares, the step fails with the sha256
mismatch error naming both hex digests, and the trace holds no write to the
final cache path: no file creation there, no byte copy, no chmod, no
rename - only the temp-file work, the fetches, the verification and the
deferred temp removal. -/
theorem c2_hash_mismatch_fails_closed (w : World) (pl : Platform)
    (v p t body txt msig raw expected : String) (sig : Signature)
    (hg1 : w.get (getFileURL v (artifactName pl)) = .ok (200, body))
    (hct : w.createTemp = .ok t)
    (hwt : w.writeTempRes = .ok ()) (hcl : w.closeTempRes = .ok ())
    (hg2 : w.get (getFileURL v "sha256.txt") = .ok (200, txt))
    (hg3 : w.get (getFileURL v "sha256.txt.minisig") = .ok (200, msig))
    (hu : w.unmarshalSignature msig = .ok sig)
    (hk : sig.keyID = w.publicKeyID)
    (hm : w.marshalSig sig = .ok raw)
    (hvf : w.minisignVerify txt raw = true)
    (hx : getSha256HexForTxtData txt (artifactName pl) = .ok expected)
    (hh : w.hashReadRes = .ok ())
    (hne : w.sha256 body ≠ expected) :
    downloadBufToFilePath w pl v p =
      (.error (mismatchError (artifactName pl) (w.sha256 body) expected),
        [.netRequest (getFileURL v (artifactName pl)), .createTempFile t, .writeTemp t,
         .netRequest (getFileURL v "sha256.txt"),
         .netRequest (getFileURL v "sha256.txt.minisig"),
         .verifySignature, .extractExpectedHash, .hashTempFile t, .removeFile t]) ∧
    Event.createFile p ∉ (downloadBufToFilePath w pl v p).snd ∧
    Event.copyBytes p ∉ (downloadBufToFilePath w pl v p).snd ∧
    Event.chmod p ∉ (downloadBufToFilePath w pl v p).snd ∧
    ∀ a, Event.renameFile a p ∉ (downloadBufToFilePath w pl v p).snd := by
  have h1 : downloadBufToFilePath w pl v p =
      (.error (mismatchError (artifactName pl) (w.sha256 body) expected),
        [.netRequest (getFileURL v (artifactName pl)), .createTempFile t, .writeTemp t,
         .netRequest (getFileURL v "sha256.txt"),
         .netRequest (getFileURL v "sha256.txt.minisig"),
         .verifySignature, .extractExpectedHash, .hashTempFile t, .removeFile t]) := by
    unfold downloadBufToFilePath restOfDownload downloadData verifySha256TxtData hashFile
    rw [downloadTempFile_ok w _ body t hg1 hct hwt hcl]
    simp [hg2, hg3, hu, hm, hx, hh, hk, hvf, hne, withRemoveTemp]
  refine ⟨h1, ?_, ?_, ?_, fun a => ?_⟩ <;> rw [h1] <;> simp

/-- A variant of the all-success oracle whose artifact bytes hash to beef
while the manifest declares deadbeef. -/
def wMismatch : World := { wOK with sha256 := fun _ => "beef" }

/-- Claim C2, witness: the concrete mismatching world fails closed with the
error naming both digests. -/
theorem c2_witness :
    downloadBufToFilePath wMismatch plLinux "1.28.1" cachePathOK =
      (.error (mismatchError "buf-Linux-x86_64" "beef" "deadbeef"),
        [.netRequest (urlOf "buf-Linux-x86_64"), .createTempFile "/tmp/bufisk123",
         .writeTemp "/tmp/bufisk123", .netRequest (urlOf "sha256.txt"),
         .netRequest (urlOf "sha256.txt.minisig"), .verifySignature, .extractExpectedHash,
         .hashTempFile "/tmp/bufisk123", .removeFile "/tmp/bufisk123"]) ∧
    Event.createFile cachePathOK ∉
      (downloadBufToFilePath wMismatch plLinux "1.28.1" cachePathOK).snd :=
  have H := c2_hash_mismatch_fails_closed wMismatch plLinux "1.28.1" cachePathOK
    "/tmp/bufisk123" "ARTIFACTBYTES" "deadbeef  buf-Linux-x86_64" "MINISIGDATA" "RAWSIG"
    "deadbeef" ⟨7⟩ rfl rfl rfl rfl rfl rfl rfl rfl rfl rfl rfl rfl (by decide)
  ⟨H.1, H.2.1⟩

/-! ## Claim C1 -/

/-- Claim C1, counterexample: in a fully successful cache-miss run the
artifact download strictly precedes the manifest fetch - the claimed order
(manifest fetch and verification strictly before the artifact download) is
false on the code, which downloads the artifact to a temp file first. -/
theorem c1_counterexample :
    (runModel plLinux rwOK).fst = .ok () ∧
    strictlyBefore (.netRequest (urlOf "sha256.txt"))
      (.netRequest (urlOf "buf-Linux-x86_64")) (runModel plLinux rwOK).snd = false ∧
    strictlyBefore (.netRequest (urlOf "buf-Linux-x86_64"))
      (.netRequest (urlOf "sha256.txt")) (runModel plLinux rwOK).snd = true :=
  ⟨rfl, by decide, by decide⟩

/-- Claim C1, amended: on a cache miss each step begins only after its
predecessor succeeded, in the order the code implements: artifact download
to a temp file, manifest fetch, signature fetch, signature verification,
expected-hash extraction, artifact hashing, cache installation (parent
directories, file creation, byte copy), chmod, temp removal, launch.  Under
hypotheses stating that every step succeeds, the full trace is exactly that
sequence. -/
theorem c1_amended (pl : Platform) (rw : RunWorld)
    (v cd t body txt msig raw expected : String) (sig : Signature)
    (hv : getBufVersion rw.envBufVersion rw.versionDirs = .ok v)
    (hcd : resolveCacheDirPath rw = .ok cd)
    (hst : rw.stat = .errNotExist)
    (hg1 : rw.w.get (getFileURL v (artifactName pl)) = .ok (200, body))
    (hct : rw.w.createTemp = .ok t)
    (hwt : rw.w.writeTempRes = .ok ()) (hcl : rw.w.closeTempRes = .ok ())
    (hg2 : rw.w.get (getFileURL v "sha256.txt") = .ok (200, txt))
    (hg3 : rw.w.get (getFileURL v "sha256.txt.minisig") = .ok (200, msig))
    (hu : rw.w.unmarshalSignature msig = .ok sig)
    (hk : sig.keyID = rw.w.publicKeyID)
    (hm : rw.w.marshalSig sig = .ok raw)
    (hvf : rw.w.minisignVerify txt raw = true)
    (hx : getSha256HexForTxtData txt (artifactName pl) = .ok expected)
    (hh : rw.w.hashReadRes = .ok ())
    (hsha : rw.w.sha256 body = expected)
    (hmk : rw.w.mkdirAllRes = .ok ()) (hop : rw.w.openSrcRes = .ok ())
    (hcr : rw.w.createDstRes = .ok ()) (hcp : rw.w.copyRes = .ok ())
    (hch : rw.w.chmodRes = .ok ()) (hrm : rw.w.removeTempRes = .ok ())
    (hpr : rw.stderrPrintRes = .ok ()) :
    runModel pl rw =
      (rw.runCmdRes,
        [.statCache (bufFilePathOf pl cd v),
         .netRequest (getFileURL v (artifactName pl)), .createTempFile t, .writeTemp t,
         .netRequest (getFileURL v "sha256.txt"),
         .netRequest (getFileURL v "sha256.txt.minisig"),
         .verifySignature, .extractExpectedHash, .hashTempFile t,
         .mkdirParents (bufFilePathOf pl cd v), .createFile (bufFilePathOf pl cd v),
         .copyBytes (bufFilePathOf pl cd v), .chmod (bufFilePathOf pl cd v),
         .removeFile t, .launch (bufFilePathOf pl cd v)]) := by
  unfold runModel
  simp only [hv, hcd, hst]
  unfold downloadBufToFilePath restOfDownload downloadData verifySha256TxtData hashFile copyFile
  rw [downloadTempFile_ok rw.w _ body t hg1 hct hwt hcl]
  simp [hg2, hg3, hu, hm, hx, hh, hk, hvf, hsha, hmk, hop, hcr, hcp, hch, hrm, hpr,
    withRemoveTemp]

/-- Claim C1, witness for the amended theorem at the concrete all-success
world. -/
theorem c1_amended_witness :
    runModel plLinux rwOK =
      (.ok (),
        [.statCache cachePathOK, .netRequest (urlOf "buf-Linux-x86_64"),
         .createTempFile "/tmp/bufisk123", .writeTemp "/tmp/bufisk123",
         .netRequest (urlOf "sha256.txt"), .netRequest (urlOf "sha256.txt.minisig"),
         .verifySignature, .extractExpectedHash, .hashTempFile "/tmp/bufisk123",
         .mkdirParents cachePathOK, .createFile cachePathOK, .copyBytes cachePathOK,
         .chmod cachePathOK, .removeFile "/tmp/bufisk123", .launch cachePathOK]) :=
  c1_amended plLinux rwOK "1.28.1" "/cache" "/tmp/bufisk123" "ARTIFACTBYTES"
    "deadbeef  buf-Linux-x86_64" "MINISIGDATA" "RAWSIG" "deadbeef" ⟨7⟩
    rfl rfl rfl rfl rfl rfl rfl rfl rfl rfl rfl rfl rfl rfl rfl rfl rfl rfl rfl rfl rfl rfl rfl

/-! ## Claim C6 -/

theorem hashFile_snd (w : World) (p c : String) :
    (hashFile w p c).snd = [.hashTempFile p] := by
  unfold hashFile
  rcases w.hashReadRes with e | u <;> simp

theorem downloadTempFile_not_gatedEvent (w : World) (u : String) :
    Event.extractExpectedHash ∉ (downloadTempFile w u).snd ∧
    Event.verifySignature ∉ (downloadTempFile w u).snd := by
  constructor <;> intro hmem <;>
    rcases downloadTempFile_mem w u _ hmem with h | ⟨t, h⟩ | ⟨t, h⟩ <;> simp at h

theorem restOfDownload_gated (w : World) (v p t fn body : String) :
    extractionGated (restOfDownload w v p t fn body).snd := by
  unfold extractionGated restOfDownload
  rcases h1 : downloadData w (getFileURL v "sha256.txt") with ⟨r1, evs1⟩
  have he1 : evs1 = [.netRequest (getFileURL v "sha256.txt")] := by
    have h := downloadData_snd w (getFileURL v "sha256.txt")
    rw [h1] at h
    exact h
  subst he1
  rcases r1 with e | txt
  · intro hmem; simp at hmem
  · dsimp only
    rcases h2 : downloadData w (getFileURL v "sha256.txt.minisig") with ⟨r2, evs2⟩
    have he2 : evs2 = [.netRequest (getFileURL v "sha256.txt.minisig")] := by
      have h := downloadData_snd w (getFileURL v "sha256.txt.minisig")
      rw [h2] at h
      exact h
    subst he2
    rcases r2 with e | msig
    · intro hmem; simp at hmem
    · dsimp only
      rcases hvv : verifySha256TxtData w txt msig with ⟨rv, evsv⟩
      rcases rv with e | uv
      · have hevsv : evsv = [] ∨ evsv = [.verifySignature] := by
          have h := verifySha256TxtData_snd w txt msig
          rw [hvv] at h
          exact h
        intro hmem
        rcases hevsv with rfl | rfl <;> simp at hmem
      · have hevsv : evsv = [.verifySignature] := by
          have h := verifySha256TxtData_ok_snd w txt msig (by rw [hvv])
          rw [hvv] at h
          exact h
        subst hevsv
        dsimp only
        rcases hx : getSha256HexForTxtData txt fn with e | expected
        · intro _
          exact ⟨[.netRequest (getFileURL v "sha256.txt"),
                  .netRequest (getFileURL v "sha256.txt.minisig")], [],
            by simp, by simp, by simp⟩
        · dsimp only
          rcases hhf : hashFile w t body with ⟨rh, evsh⟩
          have hevsh : evsh = [.hashTempFile t] := by
            have h := hashFile_snd w t body
            rw [hhf] at h
            exact h
          subst hevsh
          rcases rh with e | hex
          · intro _
            exact ⟨[.netRequest (getFileURL v "sha256.txt"),
                    .netRequest (getFileURL v "sha256.txt.minisig")], [.hashTempFile t],
              by simp, by simp, by simp⟩
          · dsimp only
            by_cases hcmp : hex ≠ expected
            · rw [if_pos hcmp]
              intro _
              exact ⟨[.netRequest (getFileURL v "sha256.txt"),
                      .netRequest (getFileURL v "sha256.txt.minisig")], [.hashTempFile t],
                by simp, by simp, by simp⟩
            · rw [if_neg hcmp]
              rcases hcf : copyFile w t p with ⟨rc, evsc⟩
              rcases rc with e | uc
              · intro _
                exact ⟨[.netRequest (getFileURL v "sha256.txt"),
                        .netRequest (getFileURL v "sha256.txt.minisig")],
                  [.hashTempFile t] ++ evsc, by simp, by simp, by simp⟩
              · rcases hch : w.chmodRes with e | uch
                · intro _
                  exact ⟨[.netRequest (getFileURL v "sha256.txt"),
                          .netRequest (getFileURL v "sha256.txt.minisig")],
                    [.hashTempFile t] ++ evsc ++ [.chmod p], by simp, by simp, by simp⟩
                · intro _
                  exact ⟨[.netRequest (getFileURL v "sha256.txt"),
                          .netRequest (getFileURL v "sha256.txt.minisig")],
                    [.hashTempFile t] ++ evsc ++ [.chmod p], by simp, by simp, by simp⟩

/-- Claim C6: a signature parsing to a key identifier different from the
embedded trusted key makes verification fail with the key-mismatch error and
an empty trace - minisign.Verify is never invoked - and, over every oracle,
the expected hash is only ever extracted from the manifest immediately after
a successful signature verification, never before. -/
theorem c6_key_mismatch_gates_verification :
    (∀ (w : World) (txt msig : String) (sig : Signature),
      w.unmarshalSignature msig = .ok sig → sig.keyID ≠ w.publicKeyID →
      verifySha256TxtData w txt msig =
        (.error (keyMismatchError w.publicKeyID sig.keyID), [])) ∧
    (∀ (w : World) (pl : Platform) (v p : String),
      extractionGated (downloadBufToFilePath w pl v p).snd) := by
  constructor
  · intro w txt msig sig hu hk
    unfold verifySha256TxtData
    rw [hu]
    simp [hk]
  · intro w pl v p
    unfold downloadBufToFilePath
    rcases h0 : downloadTempFile w (getFileURL v (artifactName pl)) with ⟨r0, evs0⟩
    have h0ng := downloadTempFile_not_gatedEvent w (getFileURL v (artifactName pl))
    rw [h0] at h0ng
    rcases r0 with e | ⟨t, body⟩
    · intro hmem
      exact absurd hmem h0ng.1
    · dsimp only
      rcases hwr : withRemoveTemp w t
        (restOfDownload w v p t (artifactName pl) body) with ⟨res, evs⟩
      have hevs : evs = (restOfDownload w v p t (artifactName pl) body).snd ++
          [.removeFile t] := by
        have h := withRemoveTemp_snd w t (restOfDownload w v p t (artifactName pl) body)
        rw [hwr] at h
        exact h
      subst hevs
      dsimp only
      intro hmem
      have hrest : Event.extractExpectedHash ∈
          (restOfDownload w v p t (artifactName pl) body).snd := by
        rcases List.mem_append.mp hmem with h | h
        · exact absurd h h0ng.1
        · rcases List.mem_append.mp h with h2 | h2
          · exact h2
          · simp at h2
      obtain ⟨pre, suf, heq, hp1, hp2⟩ :=
        restOfDownload_gated w v p t (artifactName pl) body hrest
      refine ⟨evs0 ++ pre, suf ++ [.removeFile t], ?_, ?_, ?_⟩
      · rw [heq]
        simp
      · intro hc
        rcases List.mem_append.mp hc with h | h
        · exact absurd h h0ng.1
        · exact absurd h hp1
      · intro hc
        rcases List.mem_append.mp hc with h | h
        · exact absurd h h0ng.2
        · exact absurd h hp2

/-- The all-success oracle except that signatures parse to key identifier 3
while the trusted key has identifier 7. -/
def wKeyMismatch : World := { wOK with unmarshalSignature := fun _ => .ok ⟨3⟩ }

/-- Claim C6, witness: the concrete mismatched-key world fails with the
key-mismatch error and an empty trace. -/
theorem c6_witness :
    verifySha256TxtData wKeyMismatch "deadbeef  buf-Linux-x86_64" "MINISIGDATA" =
      (.error (keyMismatchError 7 3), []) :=
  c6_key_mismatch_gates_verification.1 wKeyMismatch "deadbeef  buf-Linux-x86_64"
    "MINISIGDATA" ⟨3⟩ rfl (by decide)

end Bufisk
